import Mathlib

/-!
Verification development for the `schema-sheets-get` CLI (src/get.mjs).

The JavaScript source is shallowly embedded: pure helpers become Lean
functions, the stateful `executeQuery` pipeline becomes an explicit
state-passing function over an oracle environment (the external
`schema-sheets` store calls are inputs), and the top-level
`executeQuery().catch(retry)` race controller becomes `runProgram`.
JSON values are modelled by an ordered inductive type (JS objects keep
insertion order); JS numbers are modelled as integers (no claim depends
on floating point).
-/

/-- JSON-like runtime values, as deserialized records hold them.
Object fields are an ordered association list (JS preserves insertion
order; records deserialized from JSON have unique keys). -/
inductive JsonValue where
  | str (s : String)
  | num (n : Int)
  | bool (b : Bool)
  | null
  | arr (elems : List JsonValue)
  | obj (fields : List (String × JsonValue))

mutual

/-- JS `String(value)` coercion (get.mjs line 99 `String(value)`):
strings stay, numbers print decimally, null prints "null", arrays join
their elements with "," (null elements joining as ""), plain objects
print "[object Object]". -/
def jsToString : JsonValue → String
  | .str s => s
  | .num n => toString n
  | .bool b => if b then "true" else "false"
  | .null => "null"
  | .arr xs => jsArrJoin xs
  | .obj _ => "[object Object]"

/-- JS `Array.prototype.join(",")` over elements coerced by `String`,
null elements joining as the empty string. -/
def jsArrJoin : List JsonValue → String
  | [] => ""
  | [JsonValue.null] => ""
  | [x] => jsToString x
  | JsonValue.null :: xs => "," ++ jsArrJoin xs
  | x :: xs => jsToString x ++ "," ++ jsArrJoin xs

end

mutual

/-- Node `console.log` / `util.inspect` rendering of a nested value.
Exact for the primitive scalars every claim depends on; arrays/objects
use the bracketed inspect layout (nested strings single-quoted). -/
def inspectVal : JsonValue → String
  | .str s => String.singleton (Char.ofNat 39) ++ s ++ String.singleton (Char.ofNat 39)
  | .num n => toString n
  | .bool b => if b then "true" else "false"
  | .null => "null"
  | .arr [] => "[]"
  | .arr xs => "[ " ++ inspectList xs ++ " ]"
  | .obj [] => "\x7b\x7d"
  | .obj fs => "\x7b " ++ inspectFields fs ++ " \x7d"

/-- Inspect rendering of comma-separated array elements. -/
def inspectList : List JsonValue → String
  | [] => ""
  | [x] => inspectVal x
  | x :: xs => inspectVal x ++ ", " ++ inspectList xs

/-- Inspect rendering of comma-separated object entries. -/
def inspectFields : List (String × JsonValue) → String
  | [] => ""
  | [(k, v)] => k ++ ": " ++ inspectVal v
  | (k, v) :: fs => k ++ ": " ++ inspectVal v ++ ", " ++ inspectFields fs

end

/-- `console.log(value)` rendering: a top-level string is printed bare,
anything else via inspect. -/
def consoleLogStr (v : JsonValue) : String :=
  match v with
  | .str s => s
  | v => inspectVal v

/-- One hex digit. -/
def hexDigit (n : Nat) : Char :=
  if n < 10 then Char.ofNat (48 + n) else Char.ofNat (87 + n)

/-- Escaping of one character inside a `JSON.stringify` string literal. -/
def jsonEscapeChar (c : Char) : String :=
  if c = '"' then "\\\""
  else if c = '\\' then "\\\\"
  else if c = '\n' then "\\n"
  else if c = '\t' then "\\t"
  else if c = '\r' then "\\r"
  else if c.toNat < 32 then
    "\\u00" ++ String.singleton (hexDigit (c.toNat / 16)) ++ String.singleton (hexDigit (c.toNat % 16))
  else String.singleton c

/-- Serialization of a string as a `JSON.stringify` string literal. -/
def jsonQuote (s : String) : String :=
  "\"" ++ String.join (s.toList.map jsonEscapeChar) ++ "\""

mutual

/-- Model of `JSON.stringify(value)` (compact form, as Node emits with
no spacing argument). -/
def jsonStringify : JsonValue → String
  | .str s => jsonQuote s
  | .num n => toString n
  | .bool b => if b then "true" else "false"
  | .null => "null"
  | .arr xs => "[" ++ jsonArr xs ++ "]"
  | .obj fs => "\x7b" ++ jsonFields fs ++ "\x7d"

/-- Array elements of `JSON.stringify`, comma-separated. -/
def jsonArr : List JsonValue → String
  | [] => ""
  | [x] => jsonStringify x
  | x :: xs => jsonStringify x ++ "," ++ jsonArr xs

/-- Object entries of `JSON.stringify`, comma-separated. -/
def jsonFields : List (String × JsonValue) → String
  | [] => ""
  | [(k, v)] => jsonQuote k ++ ":" ++ jsonStringify v
  | (k, v) :: fs => jsonQuote k ++ ":" ++ jsonStringify v ++ "," ++ jsonFields fs

end

/-- JS `Object.keys(v)`: field names of an object, index strings for
arrays and strings, empty for primitives. -/
def jsKeys : JsonValue → List String
  | .obj fields => fields.map (fun kv => kv.1)
  | .arr xs => (List.range xs.length).map toString
  | .str s => (List.range s.length).map toString
  | _ => []

/-- JS property access `v[k]`, `none` standing for `undefined`.
(Property access on `null` throws in JS; the claims only exercise
object-shaped records, where this model is exact.) -/
def jsIndex : JsonValue → String → Option JsonValue
  | .obj fields, k => fields.lookup k
  | .arr xs, k => match k.toNat? with
      | some i => xs.get? i
      | none => none
  | .str s, k => match k.toNat? with
      | some i => (s.toList.get? i).map (fun c => .str (String.singleton c))
      | none => none
  | _, _ => none

/-- JS object assignment `o[k] = v` on an insertion-ordered field list:
an existing key keeps its position and is overwritten, a new key is
appended. -/
def objInsert (fs : List (String × JsonValue)) (k : String) (v : JsonValue) :
    List (String × JsonValue) :=
  if fs.any (fun kv => kv.1 == k) then
    fs.map (fun kv => if kv.1 == k then (k, v) else kv)
  else fs ++ [(k, v)]

/-- get.mjs lines 97-107 (`escapeShellValue` stage): one global
single-character replacement, `String.prototype.replace` with a
`/c/g` pattern. -/
def replaceAllChar (c : Char) (rep : List Char) : List Char → List Char
  | [] => []
  | x :: xs => (if x = c then rep else [x]) ++ replaceAllChar c rep xs

/-- The backtick character. -/
def backtickChar : Char := Char.ofNat 96

/-- get.mjs lines 97-107: escape a value for double-quoted shell
interpolation; the five global replaces are applied in source order —
backslash, double-quote, backtick, dollar, newline. -/
def escapeShellValue (value : String) : String :=
  let s := value.toList
  let s := replaceAllChar '\\' ['\\', '\\'] s
  let s := replaceAllChar '"' ['\\', '"'] s
  let s := replaceAllChar backtickChar ['\\', backtickChar] s
  let s := replaceAllChar '$' ['\\', '$'] s
  let s := replaceAllChar '\n' ['\\', 'n'] s
  ⟨s⟩

/-- Per-character description of the net effect of the five sequential
replaces of `escapeShellValue`. -/
def encodeShellChar (c : Char) : List Char :=
  if c = '\\' then ['\\', '\\']
  else if c = '"' then ['\\', '"']
  else if c = backtickChar then ['\\', backtickChar]
  else if c = '$' then ['\\', '$']
  else if c = '\n' then ['\\', 'n']
  else [c]

/-- The five characters that are special inside a double-quoted shell
string (the ones `escapeShellValue` targets). -/
def isSpecialShellChar (c : Char) : Bool :=
  c = '\\' || c = '"' || c = backtickChar || c = '$' || c = '\n'

/-- Scanner for an escaped value: every occurrence of a special shell
character must be consumed as part of a backslash escape pair, so
that, once the value is wrapped in double quotes, no special
character occurs unescaped. -/
def shellSafe : List Char → Bool
  | [] => true
  | x :: rest =>
      if x = '\\' then
        match rest with
        | [] => false
        | c :: rest2 =>
            (c = '\\' || c = '"' || c = backtickChar || c = '$' || c = 'n')
              && shellSafe rest2
      else !isSpecialShellChar x && shellSafe rest

/-- get.mjs lines 109-116: property name to shell variable name —
replace every character outside `[a-zA-Z0-9_]` with `_` (the
character-class regex replace), then upper-case the result. -/
def propertyToVarName (property : String) : String :=
  ⟨(property.toList.map
      (fun c => if c.isAlphanum || c = '_' then c else '_')).map Char.toUpper⟩

/-- JS `s.indexOf(c)` combined with the two `substring` calls of
get.mjs lines 140-145: split at the first occurrence of `c`,
returning the pieces before and after it. -/
def splitFirst (c : Char) : List Char → Option (List Char × List Char)
  | [] => none
  | x :: xs =>
      if x = c then some ([], xs)
      else (splitFirst c xs).map (fun r => (x :: r.1, r.2))

/-- JS `s.split(c)` for a single-character separator. -/
def splitOnChar (c : Char) : List Char → List (List Char)
  | [] => [[]]
  | x :: xs =>
      let r := splitOnChar c xs
      if x = c then [] :: r else (x :: r.headD []) :: r.tail

/-- Whitespace as `String.prototype.trim` removes it (ASCII part; JS
also trims some further Unicode space characters no claim uses). -/
def isSpaceChar (c : Char) : Bool :=
  c = ' ' || c = '\t' || c = '\n' || c = '\r'

/-- JS `s.trim()`. -/
def trimChars (s : List Char) : List Char :=
  ((s.dropWhile isSpaceChar).reverse.dropWhile isSpaceChar).reverse

/-- get.mjs line 146: `propertiesStr.split(',').map(p => p.trim()).filter(p => p.length > 0)`. -/
def splitProps (s : String) : List String :=
  (((splitOnChar ',' s.toList).map (fun p => (⟨trimChars p⟩ : String))).filter
    (fun p => p.length > 0))

/-- get.mjs lines 140-152: parse the query argument in named mode —
name before the first `:`, and, when a `:` is present, the trimmed
non-empty comma-separated property list after it. -/
def parseQueryInput (queryInput : String) : String × Option (List String) :=
  match splitFirst ':' queryInput.toList with
  | none => (queryInput, none)
  | some (q, ps) => ((⟨q⟩ : String), some (splitProps (⟨ps⟩ : String)))

/-! ### The z32 dependency (z-base-32 decoding)

`z32.decode` is the external `z32` package: each character of the
z-base-32 alphabet contributes five bits, a byte is emitted whenever
eight bits have accumulated, trailing bits are discarded, and any
character outside the alphabet raises the decode error. -/

/-- The z-base-32 alphabet used by the `z32` package. -/
def z32Alphabet : List Char := "ybndrfg8ejkmcpqxot1uwisza345h769".toList

/-- Value of one z-base-32 character, `none` for characters outside
the alphabet (on which `z32.decode` throws). -/
def z32Val (c : Char) : Option Nat :=
  z32Alphabet.findIdx? (fun a => a = c)

/-- Bit-accumulating decode loop of `z32.decode`. -/
def z32DecodeAux : List Char → Nat → Nat → Option (List Nat)
  | [], _, _ => some []
  | c :: cs, value, bits =>
      match z32Val c with
      | none => none
      | some v =>
          let value := value * 32 + v
          let bits := bits + 5
          if 8 ≤ bits then
            (z32DecodeAux cs value (bits - 8)).map
              (fun rest => ((value / 2 ^ (bits - 8)) % 256) :: rest)
          else z32DecodeAux cs value bits

/-- Model of `z32.decode(s)`: the decoded byte sequence, or `none`
when the input contains a character outside the alphabet. -/
def z32Decode (s : String) : Option (List Nat) :=
  z32DecodeAux s.toList 0 0

/-- get.mjs lines 72-75: decode the room link and split it —
`key = decoded.subarray(0, 32)`, `encryptionKey = decoded.subarray(32)`.
`subarray` clamps, so a short decoded sequence yields a short key and
an empty encryption key; only an invalid encoding is an error. -/
def decodeRoomLink (roomLink : String) : Except String (List Nat × List Nat) :=
  match z32Decode roomLink with
  | none => .error "Invalid character in z32 string"
  | some decoded => .ok (decoded.take 32, decoded.drop 32)

/-! ### Execution model

`executeQuery` (get.mjs lines 118-259) is embedded as a state-passing
function. The external `schema-sheets` session is an oracle: the
outcome of each `listSchemas` attempt, of `listQueries`, and of
`sheets.list` (keyed by schema id and query string) are inputs, with
`Except.error` standing for a rejected promise. `process.exit` is
the `exited` terminal outcome; a rejection of the `executeQuery()`
promise itself would be `rejectedP`. -/

/-- A schema entry as returned by `sheets.listSchemas()`. -/
structure Schema where
  schemaId : Nat
deriving DecidableEq

/-- A named query entry as returned by `sheets.listQueries(schemaId)`. -/
structure NamedQueryDef where
  name : String
  JMESPathQuery : String
deriving DecidableEq

/-- One result record as returned by `sheets.list(schemaId, opts)`. -/
structure ResultRecord where
  json : JsonValue

/-- Observable process state accumulated during one invocation:
output/error stream lines, the sleeps performed (milliseconds), the
resources released by `cleanup`, and how often `cleanup` ran. -/
structure ExecState where
  stdout : List String
  stderr : List String
  pauses : List Nat
  blindClosed : Bool
  swarmDestroyed : Bool
  storeClosed : Bool
  rmAttempts : Nat
  storageRemoved : Bool
  cleanups : Nat
deriving DecidableEq

/-- State at process start. -/
def initState : ExecState :=
  { stdout := [], stderr := [], pauses := [], blindClosed := false,
    swarmDestroyed := false, storeClosed := false, rmAttempts := 0,
    storageRemoved := false, cleanups := 0 }

/-- The command-line flags `executeQuery` consults (get.mjs lines
16-27); `storage` is the `-s` value when supplied. The JS code tests
`args.flags.storage` for truthiness, so `some ""` behaves like
`none`. -/
structure Flags where
  namedQuery : Bool
  storage : Option String
  json : Bool
  exportFlag : Bool
deriving DecidableEq

/-- An invocation environment: parsed flags, the query argument, the
store-session oracle, and whether `rm` of the storage directory
succeeds. -/
structure Env where
  flags : Flags
  queryInput : String
  listSchemasO : Nat → Except String (List Schema)
  listQueriesO : Nat → Except String (List NamedQueryDef)
  listO : Nat → String → Except String (List ResultRecord)
  rmOk : Bool

/-- Truthiness test `args.flags.storage` of get.mjs lines 34 and 58:
absent or empty string is falsy, so the temp path is used and later
removed. -/
def isFalsyStorage : Option String → Bool
  | none => true
  | some s => s = ""

/-- get.mjs line 34: `args.flags.storage || tempPath()`. -/
def storagePath (storage : Option String) (temp : String) : String :=
  match storage with
  | none => temp
  | some s => if s = "" then temp else s

/-- Append one `console.log` line. -/
def printLine (st : ExecState) (s : String) : ExecState :=
  { st with stdout := st.stdout ++ [s] }

/-- Append several `console.log` lines. -/
def printLines (st : ExecState) (ls : List String) : ExecState :=
  { st with stdout := st.stdout ++ ls }

/-- Append one `console.error` line. -/
def errLine (st : ExecState) (s : String) : ExecState :=
  { st with stderr := st.stderr ++ [s] }

/-- get.mjs lines 51-68 (`cleanup`): close the blind-peering helper,
destroy the swarm, close the store; then, only when the storage flag
is falsy (auto-generated temp path), recursively remove the storage
directory, logging — but swallowing — a removal failure. -/
def cleanup (env : Env) (st : ExecState) : ExecState :=
  let st := { st with blindClosed := true, swarmDestroyed := true,
                      storeClosed := true, cleanups := st.cleanups + 1 }
  if isFalsyStorage env.flags.storage then
    if env.rmOk then
      { st with rmAttempts := st.rmAttempts + 1, storageRemoved := true }
    else
      { st with rmAttempts := st.rmAttempts + 1,
                stderr := st.stderr ++ ["Error removing temp storage:"] }
  else st

/-- Result of one run of the `getSchemas` retry loop: the returned
list, the number of `listSchemas` attempts performed, and the pauses
slept (milliseconds, in order). -/
structure SchemasRun where
  schemas : List Schema
  attempts : Nat
  pauses : List Nat
deriving DecidableEq

/-- get.mjs lines 272-300 (`getSchemas` while-loop): up to `retries`
further attempts, stopping on the first non-empty list; after an empty
or failed attempt the retry budget is decremented and, when budget
remains, a 2000ms pause is slept. `i` is the index of the next
attempt in the oracle. -/
def getSchemasAux (o : Nat → Except String (List Schema)) : Nat → Nat → SchemasRun
  | 0, _ => ⟨[], 0, []⟩
  | r + 1, i =>
      match o i with
      | .ok schemas =>
          if schemas.isEmpty then
            let rest := getSchemasAux o r (i + 1)
            ⟨rest.schemas, rest.attempts + 1,
              (if 0 < r then [2000] else []) ++ rest.pauses⟩
          else ⟨schemas, 1, []⟩
      | .error _ =>
          let rest := getSchemasAux o r (i + 1)
          ⟨rest.schemas, rest.attempts + 1,
            (if 0 < r then [2000] else []) ++ rest.pauses⟩

/-- get.mjs line 274: the retry budget is 3 attempts total. -/
def getSchemas (o : Nat → Except String (List Schema)) : SchemasRun :=
  getSchemasAux o 3 0

/-- An attempt outcome on which the `getSchemas` loop keeps retrying:
an empty list or a rejection. -/
def isEmptyOrErr : Except String (List Schema) → Bool
  | .ok s => s.isEmpty
  | .error _ => true

/-- How the `try` block of `executeQuery` ends: an explicit
`process.exit(code)`, or a thrown error (to be handled by the
`catch`). -/
inductive TryResult where
  | exited (code : Nat)
  | threw (e : String)
deriving DecidableEq

/-- Every `process.exit` inside the `try` block is preceded by
`await cleanup()` (get.mjs lines 129-130, 163-164, 176-177, 220-221,
251-253). -/
def finishExit (env : Env) (st : ExecState) (code : Nat) : ExecState × TryResult :=
  (cleanup env st, .exited code)

/-- get.mjs lines 192-196 (loop body): add one requested property to
the output object when it is defined on the record, skip it silently
otherwise. -/
def addProp (asJson : JsonValue) (acc : List (String × JsonValue)) (prop : String) :
    List (String × JsonValue) :=
  match jsIndex asJson prop with
  | some v => objInsert acc prop v
  | none => acc

/-- get.mjs lines 189-197: JSON output object for multiple properties —
only the requested properties that are defined on the record, inserted
in request order. -/
def multiPropsJson (asJson : JsonValue) (properties : List String) : JsonValue :=
  .obj (properties.foldl (addProp asJson) [])

/-- get.mjs lines 199-207: shell-eval output lines for multiple
properties — one `VARNAME="escaped-value"` line per requested property
that is defined on the record, in request order, with the optional
`export ` piece in front. -/
def multiPropsShell (pfx : String) (asJson : JsonValue) (properties : List String) :
    List String :=
  properties.filterMap (fun prop =>
    (jsIndex asJson prop).map (fun v =>
      pfx ++ propertyToVarName prop ++ "=\"" ++ escapeShellValue (jsToString v) ++ "\""))

/-- get.mjs line 236: `typeof firstResult === 'object' &&
firstResult !== null && !Array.isArray(firstResult)`. -/
def isPlainObject : JsonValue → Bool
  | .obj _ => true
  | _ => false

/-- get.mjs lines 237-242: expression-mode shell lines — one
assignment per top-level key of the first result (no undefined guard:
every listed key is defined). -/
def exprShellLines (pfx : String) (firstResult : JsonValue) : List String :=
  (jsKeys firstResult).map (fun prop =>
    pfx ++ propertyToVarName prop ++ "=\""
      ++ escapeShellValue (match jsIndex firstResult prop with
          | some v => jsToString v
          | none => "undefined") ++ "\"")

/-- get.mjs lines 138-209: the named-query branch of `executeQuery`'s
`try` block (after schema discovery). -/
def namedBranch (env : Env) (schemaId : Nat) (st : ExecState) : ExecState × TryResult :=
  let parsed := parseQueryInput env.queryInput
  let queryName := parsed.1
  let properties := parsed.2
  match env.listQueriesO schemaId with
  | .error e => (st, .threw e)
  | .ok queries =>
      match queries.find? (fun q => q.name == queryName) with
      | none => finishExit env (errLine st ("Query \"" ++ queryName ++ "\" not found")) 1
      | some query =>
          match env.listO schemaId query.JMESPathQuery with
          | .error e => (st, .threw e)
          | .ok results =>
              if results.isEmpty then
                finishExit env (errLine st "No results found") 1
              else
                let asJson := (results.headD ⟨.null⟩).json
                match properties with
                | none =>
                    let value := (jsKeys asJson).head? >>= jsIndex asJson
                    finishExit env
                      (printLine st (match value with
                        | some v => consoleLogStr v
                        | none => "undefined")) 0
                | some props =>
                    if env.flags.json then
                      finishExit env
                        (printLine st (jsonStringify (multiPropsJson asJson props))) 0
                    else
                      let pfx := if env.flags.exportFlag then "export " else ""
                      finishExit env (printLines st (multiPropsShell pfx asJson props)) 0

/-- get.mjs lines 210-248: the JMESPath (expression) branch of
`executeQuery`'s `try` block. -/
def exprBranch (env : Env) (schemaId : Nat) (st : ExecState) : ExecState × TryResult :=
  match env.listO schemaId env.queryInput with
  | .error e => (st, .threw e)
  | .ok results =>
      if results.isEmpty then
        finishExit env (errLine st "No results found") 1
      else
        if env.flags.json then
          if results.length == 1 then
            finishExit env (printLine st (jsonStringify (results.headD ⟨.null⟩).json)) 0
          else
            finishExit env
              (printLine st (jsonStringify (.arr (results.map ResultRecord.json)))) 0
        else
          let firstResult := (results.headD ⟨.null⟩).json
          if isPlainObject firstResult then
            let pfx := if env.flags.exportFlag then "export " else ""
            finishExit env (printLines st (exprShellLines pfx firstResult)) 0
          else
            finishExit env (printLine st (consoleLogStr firstResult)) 0

/-- get.mjs lines 119-253: the `try` block of `executeQuery` — schema
discovery with its retry loop, fatal exit when no schema exists, then
the named or expression branch on the first schema's id. -/
def execTry (env : Env) (st : ExecState) : ExecState × TryResult :=
  let r := getSchemas env.listSchemasO
  let st := { st with pauses := st.pauses ++ r.pauses }
  if r.schemas.isEmpty then
    finishExit env (errLine st "No schemas found") 1
  else
    let schemaId := (r.schemas.headD ⟨0⟩).schemaId
    if env.flags.namedQuery then namedBranch env schemaId st
    else exprBranch env schemaId st

/-- How one call of `executeQuery()` ends: `process.exit(code)`, or a
rejection of its promise. The source's `catch` block (lines 254-258)
handles every throw from the `try` block — it logs the error, runs
`cleanup`, and exits 1 — so the embedded function never produces
`rejectedP`; the constructor exists to translate the race controller
faithfully. -/
inductive ExecOutcome where
  | exited (st : ExecState) (code : Nat)
  | rejectedP (st : ExecState)
deriving DecidableEq

/-- get.mjs lines 118-259: `executeQuery` — the `try` block plus the
`catch` that logs `Error:`, cleans up, and exits 1. -/
def executeQuery (env : Env) (st : ExecState) : ExecOutcome :=
  match execTry env st with
  | (st, .exited code) => .exited st code
  | (st, .threw e) => .exited (cleanup env (errLine st ("Error: " ++ e))) 1

/-- Terminal result of one process invocation: the exit code, whether
the delayed retry of the race controller ran, and the final state. -/
structure RunResult where
  exitCode : Nat
  retried : Bool
  state : ExecState
deriving DecidableEq

/-- get.mjs lines 261-270: the race controller —
`executeQuery().catch(() => setTimeout(() => executeQuery(), 200))`.
The immediate attempt runs first; only a rejection of its promise
schedules the single 200ms-delayed retry, whose own rejection would be
an unhandled terminal error. -/
def runProgram (env : Env) : RunResult :=
  match executeQuery env initState with
  | .exited st code => ⟨code, false, st⟩
  | .rejectedP st =>
      let st := { st with pauses := st.pauses ++ [200] }
      match executeQuery env st with
      | .exited st code => ⟨code, true, st⟩
      | .rejectedP st => ⟨1, true, st⟩

/-! ### Lemmas about the escaping layer -/

/-- The five replacement stages of `escapeShellValue` on a character
list, in source order. -/
def escapeList (s : List Char) : List Char :=
  replaceAllChar '\n' ['\\', 'n']
    (replaceAllChar '$' ['\\', '$']
      (replaceAllChar backtickChar ['\\', backtickChar]
        (replaceAllChar '"' ['\\', '"']
          (replaceAllChar '\\' ['\\', '\\'] s))))

lemma escapeShellValue_toList (s : String) :
    (escapeShellValue s).toList = escapeList s.toList := rfl

lemma replaceAllChar_append (c : Char) (rep : List Char) (xs ys : List Char) :
    replaceAllChar c rep (xs ++ ys)
      = replaceAllChar c rep xs ++ replaceAllChar c rep ys := by
  induction xs with
  | nil => rfl
  | cons x xs ih => simp [replaceAllChar, ih]

lemma escapeList_cons (x : Char) (xs : List Char) :
    escapeList (x :: xs) = encodeShellChar x ++ escapeList xs := by
  unfold escapeList
  rw [show replaceAllChar '\\' ['\\', '\\'] (x :: xs)
        = (if x = '\\' then ['\\', '\\'] else [x]) ++ replaceAllChar '\\' ['\\', '\\'] xs
      from rfl]
  rw [replaceAllChar_append, replaceAllChar_append, replaceAllChar_append,
    replaceAllChar_append]
  by_cases h1 : x = '\\'
  · subst h1; simp [encodeShellChar, replaceAllChar, backtickChar]
  · by_cases h2 : x = '"'
    · subst h2; simp [encodeShellChar, replaceAllChar, backtickChar]
    · by_cases h3 : x = backtickChar
      · subst h3; simp [encodeShellChar, replaceAllChar, backtickChar]
      · by_cases h4 : x = '$'
        · subst h4; simp [encodeShellChar, replaceAllChar, backtickChar]
        · by_cases h5 : x = '\n'
          · subst h5; simp [encodeShellChar, replaceAllChar, backtickChar]
          · simp [encodeShellChar, replaceAllChar, h1, h2, h3, h4, h5]

lemma escapeList_eq_flatten (s : List Char) :
    escapeList s = (s.map encodeShellChar).flatten := by
  induction s with
  | nil => rfl
  | cons x xs ih => rw [escapeList_cons, ih]; simp

lemma shellSafe_encode_append (x : Char) (rest : List Char)
    (h : shellSafe rest = true) :
    shellSafe (encodeShellChar x ++ rest) = true := by
  by_cases h1 : x = '\\'
  · subst h1; simp [encodeShellChar, shellSafe, h]
  · by_cases h2 : x = '"'
    · subst h2; simp [encodeShellChar, shellSafe, h, backtickChar]
    · by_cases h3 : x = backtickChar
      · subst h3; simp [encodeShellChar, shellSafe, h, backtickChar]
      · by_cases h4 : x = '$'
        · subst h4; simp [encodeShellChar, shellSafe, h, backtickChar]
        · by_cases h5 : x = '\n'
          · subst h5; simp [encodeShellChar, shellSafe, h, backtickChar]
          · have hspec : isSpecialShellChar x = false := by
              simp [isSpecialShellChar, h1, h2, h3, h4, h5]
            have hx : encodeShellChar x = [x] := by
              simp [encodeShellChar, h1, h2, h3, h4, h5]
            rw [hx, List.singleton_append, shellSafe.eq_def]
            simp [h1, hspec, h]

lemma shellSafe_escapeList (s : List Char) : shellSafe (escapeList s) = true := by
  induction s with
  | nil => rfl
  | cons x xs ih => rw [escapeList_cons]; exact shellSafe_encode_append x _ ih

/-- C8: `escapeShellValue` applies the five substitutions in source
order — backslash, double-quote, backtick, dollar, newline — whose net
effect is the per-character encoding `encodeShellChar`, and the
escaped value contains no unescaped occurrence of any of the five
special characters (every occurrence is part of a backslash escape
pair). -/
theorem escapeShellValue_encodes_and_is_safe (s : String) :
    (escapeShellValue s).toList = (s.toList.map encodeShellChar).flatten
    ∧ shellSafe (escapeShellValue s).toList = true := by
  rw [escapeShellValue_toList]
  exact ⟨escapeList_eq_flatten s.toList, shellSafe_escapeList s.toList⟩

/-- C10: `propertyToVarName` is not injective — the distinct property
names "api-key", "api.key" and "api key" all map to `API_KEY` — and a
request for two such distinct properties both present in the record
emits two shell assignment lines carrying the identical variable
name. -/
theorem propertyToVarName_not_injective :
    propertyToVarName "api-key" = "API_KEY"
    ∧ propertyToVarName "api.key" = "API_KEY"
    ∧ propertyToVarName "api key" = "API_KEY"
    ∧ ("api-key" : String) ≠ "api.key"
    ∧ multiPropsShell "" (.obj [("api-key", .str "1"), ("api.key", .str "2")])
        ["api-key", "api.key"]
      = ["API_KEY=\"1\"", "API_KEY=\"2\""] := by
  refine ⟨rfl, rfl, rfl, by decide, rfl⟩

/-! ### The access-descriptor decode (C2) -/

/-- C2 counterexample: the locator "yy" is validly z-base-32 encoded
and decodes to the single byte 0, fewer than 32 bytes — yet the room
link decode succeeds (with a 1-byte identifier and an empty secret)
instead of failing with a decode error, because `subarray` clamps. -/
theorem short_locator_decodes_successfully :
    z32Decode "yy" = some [0]
    ∧ decodeRoomLink "yy" = .ok ([0], [])
    ∧ ([0] : List Nat).length < 32 := by
  refine ⟨rfl, rfl, by decide⟩

/-- C2 amended: for every locator string, the decode either fails (a
character outside the z-base-32 alphabet) or yields as identifier the
first `min 32 n` decoded bytes and as secret the remaining bytes; no
minimum-length check is performed, so a short decoded sequence gives a
successful decode with a short identifier and empty secret. -/
theorem decodeRoomLink_split (roomLink : String) :
    (∃ e, decodeRoomLink roomLink = .error e)
    ∨ (∃ decoded, z32Decode roomLink = some decoded
        ∧ decodeRoomLink roomLink = .ok (decoded.take 32, decoded.drop 32)) := by
  unfold decodeRoomLink
  cases h : z32Decode roomLink with
  | none => exact .inl ⟨_, rfl⟩
  | some decoded => exact .inr ⟨decoded, rfl, rfl⟩

/-! ### Lemmas about `cleanup` and the pipeline invariants -/

@[simp] lemma cleanup_stdout (env : Env) (st : ExecState) :
    (cleanup env st).stdout = st.stdout := by
  unfold cleanup
  cases h1 : isFalsyStorage env.flags.storage
  · simp [h1]
  · cases h2 : env.rmOk <;> simp [h1, h2]

@[simp] lemma cleanup_pauses (env : Env) (st : ExecState) :
    (cleanup env st).pauses = st.pauses := by
  unfold cleanup
  cases h1 : isFalsyStorage env.flags.storage
  · simp [h1]
  · cases h2 : env.rmOk <;> simp [h1, h2]

@[simp] lemma cleanup_cleanups (env : Env) (st : ExecState) :
    (cleanup env st).cleanups = st.cleanups + 1 := by
  unfold cleanup
  cases h1 : isFalsyStorage env.flags.storage
  · simp [h1]
  · cases h2 : env.rmOk <;> simp [h1, h2]

@[simp] lemma cleanup_blindClosed (env : Env) (st : ExecState) :
    (cleanup env st).blindClosed = true := by
  unfold cleanup
  cases h1 : isFalsyStorage env.flags.storage
  · simp [h1]
  · cases h2 : env.rmOk <;> simp [h1, h2]

@[simp] lemma cleanup_swarmDestroyed (env : Env) (st : ExecState) :
    (cleanup env st).swarmDestroyed = true := by
  unfold cleanup
  cases h1 : isFalsyStorage env.flags.storage
  · simp [h1]
  · cases h2 : env.rmOk <;> simp [h1, h2]

@[simp] lemma cleanup_storeClosed (env : Env) (st : ExecState) :
    (cleanup env st).storeClosed = true := by
  unfold cleanup
  cases h1 : isFalsyStorage env.flags.storage
  · simp [h1]
  · cases h2 : env.rmOk <;> simp [h1, h2]

@[simp] lemma cleanup_rmAttempts (env : Env) (st : ExecState) :
    (cleanup env st).rmAttempts
      = st.rmAttempts + (if isFalsyStorage env.flags.storage then 1 else 0) := by
  unfold cleanup
  cases h1 : isFalsyStorage env.flags.storage
  · simp [h1]
  · cases h2 : env.rmOk <;> simp [h1, h2]

@[simp] lemma cleanup_storageRemoved (env : Env) (st : ExecState) :
    (cleanup env st).storageRemoved
      = (st.storageRemoved || (isFalsyStorage env.flags.storage && env.rmOk)) := by
  unfold cleanup
  cases h1 : isFalsyStorage env.flags.storage
  · simp [h1]
  · cases h2 : env.rmOk <;> simp [h1, h2]

lemma cleanup_stderr_sfx (env : Env) (st : ExecState) :
    ∃ t, (cleanup env st).stderr = st.stderr ++ t := by
  unfold cleanup
  cases h1 : isFalsyStorage env.flags.storage
  · exact ⟨[], by simp [h1]⟩
  · cases h2 : env.rmOk
    · exact ⟨["Error removing temp storage:"], by simp [h1, h2]⟩
    · exact ⟨[], by simp [h1, h2]⟩

/-- Invariant of one branch result: an exit performed exactly one
cleanup, a throw performed none. -/
def branchInv (env : Env) (st : ExecState) (r : ExecState × TryResult) : Prop :=
  r.1.cleanups = st.cleanups + (match r.2 with | .exited _ => 1 | .threw _ => 0)
  ∧ r.1.rmAttempts = st.rmAttempts
      + (match r.2 with
          | .exited _ => if isFalsyStorage env.flags.storage then 1 else 0
          | .threw _ => 0)
  ∧ r.1.storageRemoved
      = (st.storageRemoved
          || (match r.2 with
              | .exited _ => isFalsyStorage env.flags.storage && env.rmOk
              | .threw _ => false))

lemma branchInv_finishExit (env : Env) (st st2 : ExecState) (code : Nat)
    (h : st2.cleanups = st.cleanups ∧ st2.rmAttempts = st.rmAttempts
      ∧ st2.storageRemoved = st.storageRemoved) :
    branchInv env st (finishExit env st2 code) := by
  obtain ⟨h1, h2, h3⟩ := h
  refine ⟨?_, ?_, ?_⟩ <;> simp [finishExit, h1, h2, h3]

lemma branchInv_threw (env : Env) (st st2 : ExecState) (e : String)
    (h : st2.cleanups = st.cleanups ∧ st2.rmAttempts = st.rmAttempts
      ∧ st2.storageRemoved = st.storageRemoved) :
    branchInv env st (st2, .threw e) := by
  obtain ⟨h1, h2, h3⟩ := h
  exact ⟨by simp [h1], by simp [h2], by simp [h3]⟩

lemma namedBranch_inv (env : Env) (sid : Nat) (st : ExecState) :
    branchInv env st (namedBranch env sid st) := by
  unfold namedBranch
  dsimp only
  split
  · exact branchInv_threw env st st _ ⟨rfl, rfl, rfl⟩
  · split
    · apply branchInv_finishExit
      refine ⟨?_, ?_, ?_⟩ <;> simp [errLine]
    · split
      · exact branchInv_threw env st st _ ⟨rfl, rfl, rfl⟩
      · split
        · apply branchInv_finishExit
          refine ⟨?_, ?_, ?_⟩ <;> simp [errLine]
        · split
          · apply branchInv_finishExit
            refine ⟨?_, ?_, ?_⟩ <;> simp [printLine]
          · split
            · apply branchInv_finishExit
              refine ⟨?_, ?_, ?_⟩ <;> simp [printLine]
            · apply branchInv_finishExit
              refine ⟨?_, ?_, ?_⟩ <;> simp [printLines]

lemma exprBranch_inv (env : Env) (sid : Nat) (st : ExecState) :
    branchInv env st (exprBranch env sid st) := by
  unfold exprBranch
  dsimp only
  split
  · exact branchInv_threw env st st _ ⟨rfl, rfl, rfl⟩
  · split
    · apply branchInv_finishExit
      refine ⟨?_, ?_, ?_⟩ <;> simp [errLine]
    · split
      · split
        · apply branchInv_finishExit
          refine ⟨?_, ?_, ?_⟩ <;> simp [printLine]
        · apply branchInv_finishExit
          refine ⟨?_, ?_, ?_⟩ <;> simp [printLine]
      · split
        · apply branchInv_finishExit
          refine ⟨?_, ?_, ?_⟩ <;> simp [printLines]
        · apply branchInv_finishExit
          refine ⟨?_, ?_, ?_⟩ <;> simp [printLine]

lemma execTry_inv (env : Env) (st : ExecState) :
    branchInv env st (execTry env st) := by
  unfold execTry
  dsimp only
  split
  · apply branchInv_finishExit
    refine ⟨?_, ?_, ?_⟩ <;> simp [errLine]
  · split
    · exact namedBranch_inv env _ _
    · exact exprBranch_inv env _ _

lemma executeQuery_inv (env : Env) (st : ExecState) :
    ∃ st2 c, executeQuery env st = .exited st2 c
      ∧ st2.cleanups = st.cleanups + 1
      ∧ st2.rmAttempts
          = st.rmAttempts + (if isFalsyStorage env.flags.storage then 1 else 0)
      ∧ st2.storageRemoved
          = (st.storageRemoved || (isFalsyStorage env.flags.storage && env.rmOk)) := by
  have h := execTry_inv env st
  rcases heq : execTry env st with ⟨st1, r⟩
  rw [heq] at h
  cases r with
  | exited code =>
    refine ⟨st1, code, ?_, h.1, h.2.1, h.2.2⟩
    unfold executeQuery
    rw [heq]
  | threw e =>
    have h1 : st1.cleanups = st.cleanups := by simpa using h.1
    have h2 : st1.rmAttempts = st.rmAttempts := by simpa using h.2.1
    have h3 : st1.storageRemoved = st.storageRemoved := by simpa using h.2.2
    refine ⟨cleanup env (errLine st1 ("Error: " ++ e)), 1, ?_, ?_, ?_, ?_⟩
    · unfold executeQuery
      rw [heq]
    · simp [errLine, h1]
    · simp [errLine, h2]
    · simp [errLine, h3]

@[simp] lemma finishExit_snd (env : Env) (st : ExecState) (code : Nat) :
    (finishExit env st code).2 = .exited code := rfl

lemma namedBranch_snd_rm (env : Env) (sid : Nat) (st : ExecState) (b : Bool) :
    (namedBranch { env with rmOk := b } sid st).2 = (namedBranch env sid st).2 := by
  unfold namedBranch
  dsimp only
  split <;> try rfl
  split <;> try rfl
  split <;> try rfl
  split <;> try rfl
  split <;> try rfl
  split <;> rfl

lemma exprBranch_snd_rm (env : Env) (sid : Nat) (st : ExecState) (b : Bool) :
    (exprBranch { env with rmOk := b } sid st).2 = (exprBranch env sid st).2 := by
  unfold exprBranch
  dsimp only
  split <;> try rfl
  split <;> try rfl
  split <;> try rfl
  split <;> try rfl
  split <;> rfl

lemma execTry_snd_rm (env : Env) (st : ExecState) (b : Bool) :
    (execTry { env with rmOk := b } st).2 = (execTry env st).2 := by
  unfold execTry
  dsimp only
  split
  · rfl
  · split
    · exact namedBranch_snd_rm env _ _ b
    · exact exprBranch_snd_rm env _ _ b

lemma executeQuery_code_rm (env : Env) (st : ExecState) (b : Bool) :
    ∃ st1 st2 c, executeQuery { env with rmOk := b } st = .exited st1 c
      ∧ executeQuery env st = .exited st2 c := by
  have hsnd := execTry_snd_rm env st b
  rcases h1 : execTry { env with rmOk := b } st with ⟨s1, r1⟩
  rcases h2 : execTry env st with ⟨s2, r2⟩
  rw [h1, h2] at hsnd
  dsimp only at hsnd
  subst hsnd
  unfold executeQuery
  rw [h1, h2]
  cases r1 with
  | exited code => exact ⟨s1, s2, code, rfl, rfl⟩
  | threw e => exact ⟨_, _, 1, rfl, rfl⟩

/-! ### Concrete environments used by the concrete theorems -/

/-- Failing-input environment for the race-controller claim: the store
session is reachable (one schema), but `sheets.list` rejects — the
typical "not yet synced" condition. -/
def envSyncFail : Env :=
  { flags := { namedQuery := false, storage := some "/keep", json := false,
               exportFlag := false },
    queryInput := "[?env].key",
    listSchemasO := fun _ => .ok [⟨1⟩],
    listQueriesO := fun _ => .ok [],
    listO := fun _ _ => .error "CHANNEL_CLOSED",
    rmOk := true }

/-- Expression-mode environment whose query yields a single scalar
(string) result, with the json flag set. -/
def envScalarJson : Env :=
  { flags := { namedQuery := false, storage := some "/keep", json := true,
               exportFlag := false },
    queryInput := "[?env].key",
    listSchemasO := fun _ => .ok [⟨1⟩],
    listQueriesO := fun _ => .ok [],
    listO := fun _ _ => .ok [⟨.str "hi"⟩],
    rmOk := true }

/-- Expression-mode environment whose query yields a single scalar
(string) result, with the json flag clear and the export flag set. -/
def envScalarBare : Env :=
  { flags := { namedQuery := false, storage := some "/keep", json := false,
               exportFlag := true },
    queryInput := "[?env].key",
    listSchemasO := fun _ => .ok [⟨1⟩],
    listQueriesO := fun _ => .ok [],
    listO := fun _ _ => .ok [⟨.str "hi"⟩],
    rmOk := true }

/-- Named-mode environment matching the spec fixture: properties
`api-key,database-url`, record `{"api-key":"k1","database-url":"d1"}`,
flags json=false, export=true. -/
def envNamedFixture : Env :=
  { flags := { namedQuery := true, storage := some "/keep", json := false,
               exportFlag := true },
    queryInput := "staging/app1:api-key,database-url",
    listSchemasO := fun _ => .ok [⟨1⟩],
    listQueriesO := fun _ => .ok [⟨"staging/app1", "[?env].x"⟩],
    listO := fun _ q =>
      if q = "[?env].x" then
        .ok [⟨.obj [("api-key", .str "k1"), ("database-url", .str "d1")]⟩]
      else .error "unexpected query",
    rmOk := true }

/-- Environment whose schema listing is empty on every attempt. -/
def envNoSchemas : Env :=
  { flags := { namedQuery := false, storage := none, json := false,
               exportFlag := false },
    queryInput := "[?env].key",
    listSchemasO := fun _ => .ok [],
    listQueriesO := fun _ => .ok [],
    listO := fun _ _ => .ok [],
    rmOk := true }

/-- Environment with a user-supplied (non-empty) storage path. -/
def envUserStorage : Env :=
  { flags := { namedQuery := false, storage := some "/keep", json := false,
               exportFlag := false },
    queryInput := "[?env].key",
    listSchemasO := fun _ => .ok [⟨1⟩],
    listQueriesO := fun _ => .ok [],
    listO := fun _ _ => .ok [⟨.str "hi"⟩],
    rmOk := true }

/-- Environment with an auto-generated (temp) storage path. -/
def envTempStorage : Env :=
  { flags := { namedQuery := false, storage := none, json := false,
               exportFlag := false },
    queryInput := "[?env].key",
    listSchemasO := fun _ => .ok [⟨1⟩],
    listQueriesO := fun _ => .ok [⟨"n", "q"⟩],
    listO := fun _ _ => .ok [⟨.str "hi"⟩],
    rmOk := true }

/-! ### Claim theorems about the race controller and lifecycle -/

/-- C1 (code behavior, contradicting the claim): when the immediate
pipeline attempt fails — here `sheets.list` rejects with
`CHANNEL_CLOSED` — `executeQuery`'s own `catch` logs the error, runs
cleanup and exits 1 at once. No 200ms pause is slept and the delayed
retry never runs; indeed the outer `.catch` race controller never
schedules a retry for any invocation, because the internal `catch`
swallows every pipeline failure. -/
theorem immediate_failure_exits_without_retry :
    (runProgram envSyncFail).exitCode = 1
    ∧ (runProgram envSyncFail).retried = false
    ∧ (runProgram envSyncFail).state.pauses = []
    ∧ (runProgram envSyncFail).state.stderr = ["Error: CHANNEL_CLOSED"]
    ∧ (runProgram envSyncFail).state.cleanups = 1
    ∧ ∀ env : Env, (runProgram env).retried = false := by
  refine ⟨rfl, rfl, rfl, rfl, rfl, ?_⟩
  intro env
  obtain ⟨st2, c, heq, -⟩ := executeQuery_inv env initState
  unfold runProgram
  rw [heq]

/-- C4: the teardown sequence runs exactly once per invocation —
whatever the flags, the oracle outcomes, and which exit path is taken
— and running `cleanup` a second time leaves every released resource
in the same state as running it once. -/
theorem teardown_exactly_once_and_idempotent (env : Env) (st : ExecState) :
    (runProgram env).state.cleanups = 1
    ∧ (cleanup env (cleanup env st)).blindClosed = (cleanup env st).blindClosed
    ∧ (cleanup env (cleanup env st)).swarmDestroyed = (cleanup env st).swarmDestroyed
    ∧ (cleanup env (cleanup env st)).storeClosed = (cleanup env st).storeClosed
    ∧ (cleanup env (cleanup env st)).storageRemoved = (cleanup env st).storageRemoved := by
  refine ⟨?_, by simp, by simp, by simp, by simp [Bool.or_assoc]⟩
  obtain ⟨st2, c, heq, hcl, -⟩ := executeQuery_inv env initState
  unfold runProgram
  rw [heq]
  simpa [initState] using hcl

/-- C9: the storage directory is removed exactly when the storage path
was auto-generated — a user-supplied non-empty `-s` path is never
removed (no removal is even attempted), a falsy storage flag leads to
exactly one removal attempt — and a failed removal is logged on the
error stream without changing the process exit code. -/
theorem storage_removal_policy (env : Env) (st : ExecState) :
    (∀ s, env.flags.storage = some s → s ≠ "" →
        (cleanup env st).rmAttempts = st.rmAttempts
        ∧ (cleanup env st).storageRemoved = st.storageRemoved)
    ∧ (isFalsyStorage env.flags.storage = true →
        (cleanup env st).rmAttempts = st.rmAttempts + 1
        ∧ (env.rmOk = false →
            (cleanup env st).stderr = st.stderr ++ ["Error removing temp storage:"]))
    ∧ (runProgram { env with rmOk := false }).exitCode
        = (runProgram { env with rmOk := true }).exitCode := by
  refine ⟨?_, ?_, ?_⟩
  · intro s hs hne
    have hf : isFalsyStorage env.flags.storage = false := by
      simp [isFalsyStorage, hs, hne]
    constructor <;> simp [hf]
  · intro hf
    refine ⟨by simp [hf], ?_⟩
    intro hrm
    unfold cleanup
    simp [hf, hrm]
  · obtain ⟨st1, st2, c, h1, h2⟩ := executeQuery_code_rm env initState false
    obtain ⟨st3, st4, c2, h3, h4⟩ := executeQuery_code_rm env initState true
    have hc : c = c2 := by
      rw [h2] at h4
      have h5 : st2 = st4 ∧ c = c2 := by simpa using h4
      exact h5.2
    unfold runProgram
    rw [h1, h3, hc]

/-! ### The schema-listing retry policy (C5) -/

lemma getSchemasAux_fail_step (o : Nat → Except String (List Schema)) (r i : Nat)
    (hfail : isEmptyOrErr (o i) = true) :
    getSchemasAux o (r + 1) i
      = ⟨(getSchemasAux o r (i + 1)).schemas, (getSchemasAux o r (i + 1)).attempts + 1,
         (if 0 < r then [2000] else []) ++ (getSchemasAux o r (i + 1)).pauses⟩ := by
  have hb : getSchemasAux o (r + 1) i
      = match o i with
        | .ok schemas =>
            if schemas.isEmpty then
              let rest := getSchemasAux o r (i + 1)
              ⟨rest.schemas, rest.attempts + 1,
                (if 0 < r then [2000] else []) ++ rest.pauses⟩
            else ⟨schemas, 1, []⟩
        | .error _ =>
            let rest := getSchemasAux o r (i + 1)
            ⟨rest.schemas, rest.attempts + 1,
              (if 0 < r then [2000] else []) ++ rest.pauses⟩ := rfl
  rw [hb]
  cases ho : o i with
  | ok s =>
    have hs : s.isEmpty = true := by simpa [isEmptyOrErr, ho] using hfail
    simp only [hs, if_true]
  | error e => rfl

lemma getSchemasAux_ok_step (o : Nat → Except String (List Schema)) (r i : Nat)
    (s : List Schema) (ho : o i = .ok s) (hs : s.isEmpty = false) :
    getSchemasAux o (r + 1) i = ⟨s, 1, []⟩ := by
  unfold getSchemasAux
  rw [ho]
  simp [hs]

lemma getSchemasAux_spec (o : Nat → Except String (List Schema)) :
    ∀ r i,
      (getSchemasAux o r i).attempts ≤ r
      ∧ (0 < r → 0 < (getSchemasAux o r i).attempts)
      ∧ (getSchemasAux o r i).pauses
          = List.replicate ((getSchemasAux o r i).attempts - 1) 2000
      ∧ ((getSchemasAux o r i).schemas ≠ [] →
          o (i + ((getSchemasAux o r i).attempts - 1)) = .ok (getSchemasAux o r i).schemas
          ∧ ∀ j, j < (getSchemasAux o r i).attempts - 1 → isEmptyOrErr (o (i + j)) = true)
      ∧ ((getSchemasAux o r i).schemas = [] →
          (getSchemasAux o r i).attempts = r
          ∧ ∀ j, j < r → isEmptyOrErr (o (i + j)) = true) := by
  intro r
  induction r with
  | zero =>
    intro i
    refine ⟨Nat.le_refl 0, by omega, rfl, ?_, ?_⟩
    · intro h; exact absurd rfl h
    · intro _; exact ⟨rfl, by omega⟩
  | succ r ih =>
    intro i
    by_cases hfail : isEmptyOrErr (o i) = true
    · have hstep := getSchemasAux_fail_step o r i hfail
      obtain ⟨ihle, ihpos, ihp, ihstop, ihex⟩ := ih (i + 1)
      rw [hstep]
      dsimp only
      refine ⟨by omega, by omega, ?_, ?_, ?_⟩
      · rw [ihp]
        by_cases hr : 0 < r
        · have hpos := ihpos hr
          obtain ⟨k, hk⟩ : ∃ k, (getSchemasAux o r (i + 1)).attempts = k + 1 :=
            ⟨(getSchemasAux o r (i + 1)).attempts - 1, by omega⟩
          rw [hk, if_pos hr]
          simp [List.replicate_succ]
        · have hr0 : r = 0 := by omega
          subst hr0
          simp [getSchemasAux]
      · intro hne
        obtain ⟨hok, hall⟩ := ihstop hne
        constructor
        · have : i + ((getSchemasAux o r (i + 1)).attempts + 1 - 1)
              = (i + 1) + ((getSchemasAux o r (i + 1)).attempts - 1) := by
            have := ihpos (by
              by_contra hr
              have hr0 : r = 0 := by omega
              subst hr0
              simp [getSchemasAux] at hne)
            omega
          rw [this]
          exact hok
        · intro j hj
          rcases Nat.eq_zero_or_pos j with hj0 | hjpos
          · subst hj0
            simpa using hfail
          · obtain ⟨j2, hj2⟩ : ∃ j2, j = j2 + 1 := ⟨j - 1, by omega⟩
            subst hj2
            have : i + (j2 + 1) = (i + 1) + j2 := by omega
            rw [this]
            exact hall j2 (by omega)
      · intro hemp
        obtain ⟨hatt, hall⟩ := ihex hemp
        refine ⟨by omega, ?_⟩
        intro j hj
        rcases Nat.eq_zero_or_pos j with hj0 | hjpos
        · subst hj0
          simpa using hfail
        · obtain ⟨j2, hj2⟩ : ∃ j2, j = j2 + 1 := ⟨j - 1, by omega⟩
          subst hj2
          have : i + (j2 + 1) = (i + 1) + j2 := by omega
          rw [this]
          exact hall j2 (by omega)
    · have hok : ∃ s, o i = .ok s ∧ s.isEmpty = false := by
        cases ho : o i with
        | ok s =>
          refine ⟨s, rfl, ?_⟩
          by_contra hs
          have hs2 : s.isEmpty = true := by
            cases h2 : s.isEmpty
            · exact absurd h2 hs
            · rfl
          exact hfail (by simp [isEmptyOrErr, ho, hs2])
        | error e => exact absurd (by simp [isEmptyOrErr, ho]) hfail
      obtain ⟨s, ho, hs⟩ := hok
      rw [getSchemasAux_ok_step o r i s ho hs]
      dsimp only
      refine ⟨by omega, by omega, rfl, ?_, ?_⟩
      · intro _
        refine ⟨by simpa using ho, ?_⟩
        intro j hj
        omega
      · intro hemp
        rw [hemp] at hs
        simp at hs

lemma executeQuery_no_schemas (env : Env)
    (hemp : (getSchemas env.listSchemasO).schemas = []) :
    executeQuery env initState
      = .exited (cleanup env (errLine
          { initState with pauses := initState.pauses ++ (getSchemas env.listSchemasO).pauses }
          "No schemas found")) 1 := by
  unfold executeQuery execTry
  dsimp only
  simp only [hemp, List.isEmpty_nil, if_true]
  rfl

/-- C5: schema listing makes at most 3 attempts with a 2000ms pause
between consecutive attempts (one fewer pause than attempts), keeps
retrying only while the result is empty or the call fails, stops as
soon as a non-empty list is obtained (the returned list is that
attempt's result), and when every attempt yields zero schemas exactly
3 attempts were made — each empty or failed — and the invocation
terminates fatally with exit code 1 and the `No schemas found`
diagnostic, with no fourth attempt. -/
theorem schema_retry_policy (env : Env) :
    (getSchemas env.listSchemasO).attempts ≤ 3
    ∧ (getSchemas env.listSchemasO).pauses
        = List.replicate ((getSchemas env.listSchemasO).attempts - 1) 2000
    ∧ ((getSchemas env.listSchemasO).schemas ≠ [] →
        env.listSchemasO ((getSchemas env.listSchemasO).attempts - 1)
          = .ok (getSchemas env.listSchemasO).schemas
        ∧ ∀ j, j < (getSchemas env.listSchemasO).attempts - 1 →
            isEmptyOrErr (env.listSchemasO j) = true)
    ∧ ((getSchemas env.listSchemasO).schemas = [] →
        (getSchemas env.listSchemasO).attempts = 3
        ∧ (∀ j, j < 3 → isEmptyOrErr (env.listSchemasO j) = true)
        ∧ ∃ st, executeQuery env initState = .exited st 1
            ∧ "No schemas found" ∈ st.stderr) := by
  obtain ⟨hle, _, hp, hstop, hex⟩ := getSchemasAux_spec env.listSchemasO 3 0
  refine ⟨hle, hp, ?_, ?_⟩
  · intro hne
    obtain ⟨hok, hall⟩ := hstop hne
    refine ⟨by simpa using hok, ?_⟩
    intro j hj
    simpa using hall j hj
  · intro hemp
    obtain ⟨hatt, hall⟩ := hex hemp
    refine ⟨hatt, fun j hj => by simpa using hall j hj, ?_⟩
    obtain ⟨t, ht⟩ := cleanup_stderr_sfx env (errLine
      { initState with pauses := initState.pauses ++ (getSchemas env.listSchemasO).pauses }
      "No schemas found")
    refine ⟨_, executeQuery_no_schemas env hemp, ?_⟩
    rw [ht]
    simp [errLine, initState]

/-- Witness for C5 at a concrete environment whose schema listing is
empty on every attempt. -/
theorem schema_retry_policy_witness :
    (getSchemas envNoSchemas.listSchemasO).schemas = []
    ∧ (getSchemas envNoSchemas.listSchemasO).attempts = 3
    ∧ (getSchemas envNoSchemas.listSchemasO).pauses = [2000, 2000]
    ∧ ∃ st, executeQuery envNoSchemas initState = .exited st 1
        ∧ "No schemas found" ∈ st.stderr := by
  have h := (schema_retry_policy envNoSchemas).2.2.2 (by rfl)
  exact ⟨rfl, h.1, rfl, h.2.2⟩

/-! ### Projection of requested properties (C6) -/

lemma filterMap_filter_ne {α β : Type} [DecidableEq α] (f : α → Option β) (p : α)
    (hf : f p = none) : ∀ l : List α,
    l.filterMap f = (l.filter (fun q => q != p)).filterMap f := by
  intro l
  induction l with
  | nil => rfl
  | cons a l ih =>
    by_cases ha : a = p
    · subst ha
      simp [List.filter_cons, hf, ih]
    · simp [List.filter_cons, List.filterMap_cons, ha, ih]

lemma foldl_addProp_filter (asJson : JsonValue) (p : String)
    (hp : jsIndex asJson p = none) :
    ∀ (props : List String) (acc : List (String × JsonValue)),
      props.foldl (addProp asJson) acc
        = (props.filter (fun q => q != p)).foldl (addProp asJson) acc := by
  intro props
  induction props with
  | nil => intro acc; rfl
  | cons a props ih =>
    intro acc
    by_cases ha : a = p
    · subst ha
      have hstep : addProp asJson acc a = acc := by simp [addProp, hp]
      simp [List.filter_cons, List.foldl_cons, hstep, ih]
    · simp only [List.foldl_cons, List.filter_cons]
      have hbne : (a != p) = true := by simp [ha]
      rw [hbne]
      simp only [if_true]
      exact ih (addProp asJson acc a)

lemma keys_objInsert (fs : List (String × JsonValue)) (k : String) (v : JsonValue)
    (p : String) (hp : p ∈ (objInsert fs k v).map (fun kv => kv.1)) :
    p ∈ fs.map (fun kv => kv.1) ∨ p = k := by
  unfold objInsert at hp
  by_cases hany : fs.any (fun kv => kv.1 == k) = true
  · rw [if_pos hany] at hp
    rw [List.map_map] at hp
    obtain ⟨kv, hkv, hkv2⟩ := List.mem_map.mp hp
    by_cases h : kv.1 == k
    · right
      rw [← hkv2]
      simp [Function.comp, h]
    · left
      refine List.mem_map.mpr ⟨kv, hkv, ?_⟩
      simpa [Function.comp, h] using hkv2
  · rw [if_neg hany] at hp
    rw [List.map_append] at hp
    rcases List.mem_append.mp hp with h | h
    · exact .inl h
    · right
      simpa using h

lemma not_mem_keys_foldl (asJson : JsonValue) (p : String)
    (hp : jsIndex asJson p = none) :
    ∀ (props : List String) (acc : List (String × JsonValue)),
      p ∉ acc.map (fun kv => kv.1) →
      p ∉ (props.foldl (addProp asJson) acc).map (fun kv => kv.1) := by
  intro props
  induction props with
  | nil => intro acc h; simpa using h
  | cons a props ih =>
    intro acc hacc
    simp only [List.foldl_cons]
    apply ih
    intro hmem
    unfold addProp at hmem
    cases ha : jsIndex asJson a with
    | none => rw [ha] at hmem; exact hacc hmem
    | some v =>
      rw [ha] at hmem
      rcases keys_objInsert acc a v p hmem with h | h
      · exact hacc h
      · subst h
        rw [ha] at hp
        cases hp

/-- C6: a property that is requested but absent from the record is
silently skipped by both output encodings — the shell lines and the
JSON object are the same as if the property had not been requested at
all, and the absent property never appears as a JSON key. (No error:
both projections are total and the success path continues to exit 0.) -/
theorem missing_property_skipped (fields : List (String × JsonValue))
    (props : List String) (p pfx : String)
    (hp : jsIndex (.obj fields) p = none) :
    multiPropsShell pfx (.obj fields) props
      = multiPropsShell pfx (.obj fields) (props.filter (fun q => q != p))
    ∧ multiPropsJson (.obj fields) props
      = multiPropsJson (.obj fields) (props.filter (fun q => q != p))
    ∧ p ∉ jsKeys (multiPropsJson (.obj fields) props) := by
  refine ⟨?_, ?_, ?_⟩
  · unfold multiPropsShell
    exact filterMap_filter_ne _ p (by simp [hp]) props
  · unfold multiPropsJson
    rw [foldl_addProp_filter (.obj fields) p hp props []]
  · show p ∉ (props.foldl (addProp (.obj fields)) []).map (fun kv => kv.1)
    exact not_mem_keys_foldl (.obj fields) p hp props [] (by simp)

/-- Witness for C6 at the spec fixture: record
`{"a":"1","b":"2"}`, requested properties `["a","c"]` — the absent
`c` yields no shell line and no JSON key. -/
theorem missing_property_skipped_witness :
    jsIndex (.obj [("a", .str "1"), ("b", .str "2")]) "c" = none
    ∧ multiPropsShell "" (.obj [("a", .str "1"), ("b", .str "2")]) ["a", "c"]
        = ["A=\"1\""]
    ∧ "c" ∉ jsKeys (multiPropsJson (.obj [("a", .str "1"), ("b", .str "2")]) ["a", "c"]) := by
  have h := missing_property_skipped [("a", .str "1"), ("b", .str "2")] ["a", "c"] "c" "" rfl
  refine ⟨rfl, ?_, h.2.2⟩
  rw [h.1]
  rfl

/-! ### Named-mode parsing and output (C7), expression-mode scalars (C3) -/

lemma splitFirst_of_append (c : Char) (qn rest : List Char) (h : c ∉ qn) :
    splitFirst c (qn ++ c :: rest) = some (qn, rest) := by
  induction qn with
  | nil => simp [splitFirst]
  | cons x qn ih =>
    have hx : ¬x = c := fun hxc => h (hxc ▸ List.mem_cons_self x qn)
    have h2 : c ∉ qn := fun hc => h (List.mem_cons_of_mem x hc)
    simp [splitFirst, hx, ih h2]

lemma parseQueryInput_eq (queryName propsStr s : String)
    (h : s.toList = queryName.toList ++ ':' :: propsStr.toList)
    (hq : ':' ∉ queryName.toList) :
    parseQueryInput s = (queryName, some (splitProps propsStr)) := by
  unfold parseQueryInput
  rw [h, splitFirst_of_append ':' _ _ hq]
  rfl

lemma execTry_nonempty (env : Env) (st : ExecState)
    (hs : (getSchemas env.listSchemasO).schemas ≠ []) :
    execTry env st
      = (if env.flags.namedQuery then
          namedBranch env ((getSchemas env.listSchemasO).schemas.headD ⟨0⟩).schemaId
            { st with pauses := st.pauses ++ (getSchemas env.listSchemasO).pauses }
        else
          exprBranch env ((getSchemas env.listSchemasO).schemas.headD ⟨0⟩).schemaId
            { st with pauses := st.pauses ++ (getSchemas env.listSchemasO).pauses }) := by
  have hemp : (getSchemas env.listSchemasO).schemas.isEmpty = false :=
    List.isEmpty_eq_false.mpr hs
  unfold execTry
  dsimp only
  rw [hemp, if_neg (by simp)]

/-- C7: in named mode with json=false and export=true, when the looked
up query succeeds with an object record, the output is exactly the
shell lines of `multiPropsShell` with the `export ` piece — one line
`export VARNAME="escaped-value"` per requested property present on the
record, in the order given by `splitProps` (the `:`-suffix split on
`,`, pieces trimmed, empty pieces discarded, order preserved) — and
the process exits 0. -/
theorem named_export_shell_output (env : Env) (queryName propsStr : String)
    (fields : List (String × JsonValue)) (qd : NamedQueryDef)
    (qs : List NamedQueryDef) (rest : List ResultRecord)
    (hnm : env.flags.namedQuery = true)
    (hjson : env.flags.json = false)
    (hexp : env.flags.exportFlag = true)
    (hq : env.queryInput.toList = queryName.toList ++ ':' :: propsStr.toList)
    (hqn : ':' ∉ queryName.toList)
    (hs : (getSchemas env.listSchemasO).schemas ≠ [])
    (hlq : env.listQueriesO ((getSchemas env.listSchemasO).schemas.headD ⟨0⟩).schemaId
        = .ok qs)
    (hfind : qs.find? (fun q => q.name == queryName) = some qd)
    (hres : env.listO ((getSchemas env.listSchemasO).schemas.headD ⟨0⟩).schemaId
        qd.JMESPathQuery = .ok ({ json := .obj fields } :: rest)) :
    (runProgram env).state.stdout
      = multiPropsShell "export " (.obj fields) (splitProps propsStr)
    ∧ (runProgram env).exitCode = 0 := by
  have hparse := parseQueryInput_eq queryName propsStr env.queryInput hq hqn
  have hnb : namedBranch env ((getSchemas env.listSchemasO).schemas.headD ⟨0⟩).schemaId
      { initState with pauses := initState.pauses ++ (getSchemas env.listSchemasO).pauses }
      = finishExit env
          (printLines
            { initState with pauses := initState.pauses ++ (getSchemas env.listSchemasO).pauses }
            (multiPropsShell "export " (.obj fields) (splitProps propsStr))) 0 := by
    unfold namedBranch
    dsimp only
    rw [hparse, hlq]
    try dsimp only
    rw [hfind]
    try dsimp only
    rw [hres]
    try dsimp only
    rw [show (({ json := .obj fields } : ResultRecord) :: rest).isEmpty = false from rfl,
      if_neg (by simp)]
    try dsimp only
    rw [hjson, if_neg (by simp), hexp, if_pos rfl]
    rfl
  have hexec : executeQuery env initState
      = .exited (cleanup env
          (printLines
            { initState with pauses := initState.pauses ++ (getSchemas env.listSchemasO).pauses }
            (multiPropsShell "export " (.obj fields) (splitProps propsStr)))) 0 := by
    unfold executeQuery
    rw [execTry_nonempty env initState hs, if_pos hnm, hnb]
    rfl
  unfold runProgram
  rw [hexec]
  constructor
  · simp [printLines, initState]
  · rfl

/-- Witness for C7 at the spec fixture: properties
`api-key,database-url`, record `{"api-key":"k1","database-url":"d1"}`,
flags json=false and export=true give exactly the two export lines in
request order. -/
theorem named_export_shell_output_witness :
    (runProgram envNamedFixture).state.stdout
      = ["export API_KEY=\"k1\"", "export DATABASE_URL=\"d1\""]
    ∧ (runProgram envNamedFixture).exitCode = 0 := by
  have h := named_export_shell_output envNamedFixture "staging/app1" "api-key,database-url"
    [("api-key", .str "k1"), ("database-url", .str "d1")]
    ⟨"staging/app1", "[?env].x"⟩ [⟨"staging/app1", "[?env].x"⟩] []
    rfl rfl rfl rfl (by decide) (by decide) rfl rfl rfl
  refine ⟨?_, h.2⟩
  rw [h.1]
  rfl

/-- C3 counterexample: with the json flag set, a scalar first result is
NOT printed bare — the `args.flags.json` branch is taken first and the
scalar is JSON-stringified, so the string scalar `hi` is printed as
`"hi"` (with quotes) rather than bare. -/
theorem scalar_with_json_flag_not_bare :
    (runProgram envScalarJson).state.stdout = ["\"hi\""]
    ∧ consoleLogStr (.str "hi") = "hi"
    ∧ (runProgram envScalarJson).state.stdout ≠ [consoleLogStr (.str "hi")] := by
  refine ⟨rfl, rfl, by decide⟩

/-- C3 amended: in expression mode, when the first record's json value
is a scalar (not a non-null, non-array object) and the json flag is
false, the scalar is printed bare on the output stream regardless of
the export flag, and the process exits 0. (When the json flag is set,
the JSON serialization is printed instead — see the counterexample.) -/
theorem expr_scalar_printed_bare (env : Env) (v : JsonValue) (rest : List ResultRecord)
    (hnm : env.flags.namedQuery = false)
    (hjson : env.flags.json = false)
    (hscalar : isPlainObject v = false)
    (hs : (getSchemas env.listSchemasO).schemas ≠ [])
    (hres : env.listO ((getSchemas env.listSchemasO).schemas.headD ⟨0⟩).schemaId
        env.queryInput = .ok ({ json := v } :: rest)) :
    (runProgram env).state.stdout = [consoleLogStr v]
    ∧ (runProgram env).exitCode = 0 := by
  have heb : exprBranch env ((getSchemas env.listSchemasO).schemas.headD ⟨0⟩).schemaId
      { initState with pauses := initState.pauses ++ (getSchemas env.listSchemasO).pauses }
      = finishExit env
          (printLine
            { initState with pauses := initState.pauses ++ (getSchemas env.listSchemasO).pauses }
            (consoleLogStr v)) 0 := by
    unfold exprBranch
    dsimp only
    rw [hres]
    try dsimp only
    rw [show (({ json := v } : ResultRecord) :: rest).isEmpty = false from rfl,
      if_neg (by simp)]
    try dsimp only
    rw [hjson, if_neg (by simp)]
    try dsimp only
    rw [show (({ json := v } : ResultRecord) :: rest).headD ⟨.null⟩
        = ({ json := v } : ResultRecord) from rfl]
    rw [hscalar, if_neg (by simp)]
  have hexec : executeQuery env initState
      = .exited (cleanup env
          (printLine
            { initState with pauses := initState.pauses ++ (getSchemas env.listSchemasO).pauses }
            (consoleLogStr v))) 0 := by
    unfold executeQuery
    rw [execTry_nonempty env initState hs, if_neg (by simp [hnm]), heb]
    rfl
  unfold runProgram
  rw [hexec]
  exact ⟨by simp [printLine, initState], rfl⟩

/-- Witness for the amended C3: the scalar `hi` with json=false and
export=true is printed bare. -/
theorem expr_scalar_printed_bare_witness :
    (runProgram envScalarBare).state.stdout = ["hi"]
    ∧ (runProgram envScalarBare).exitCode = 0 := by
  have h := expr_scalar_printed_bare envScalarBare (.str "hi") [] rfl rfl rfl
    (by decide) rfl
  exact ⟨h.1, h.2⟩

/-- Witness for C9: a user-supplied path `/keep` is never removed (no
removal attempt, nothing removed), while an auto-generated (absent
`-s`) storage leads to exactly one removal attempt. -/
theorem storage_removal_policy_witness :
    ((cleanup envUserStorage initState).rmAttempts = 0
      ∧ (cleanup envUserStorage initState).storageRemoved = false)
    ∧ (cleanup envTempStorage initState).rmAttempts = 1 := by
  have h1 := (storage_removal_policy envUserStorage initState).1 "/keep" rfl (by decide)
  have h2 := (storage_removal_policy envTempStorage initState).2.1 rfl
  exact ⟨⟨h1.1, h1.2⟩, h2.1⟩
